import Mathlib

/-!
Verification of the bank-statement-parser service (`main.py`).

The development shallowly embeds the Python source:
* Python string primitives (`str.strip`, `str.replace`, slicing, `re.fullmatch`)
  are modelled over `List Char` / `String`.
* `re.fullmatch` is modelled by a Brzozowski-derivative matcher over a small
  regular-expression type; `\d` is the Unicode decimal-digit class (category Nd),
  which is what Python's `re` matches on `str` patterns.
* JSON-decoded Python values are modelled by `JValue`; raising Python code is
  modelled with `Except`.
* External collaborators (werkzeug's secure_filename, pdfplumber, the Gemini
  client, `json.loads`) are fields of a `Collab` record so theorems quantify
  over their behaviour; the filesystem is a list of existing paths.
-/

/-! ## Python character predicates -/

/-- The set of characters removed by Python's `str.strip()` with no arguments
(CPython's `Py_UNICODE_ISSPACE`). -/
def pyIsSpace (c : Char) : Bool :=
  (0x9 ≤ c.toNat && c.toNat ≤ 0xd) ||
  (0x1c ≤ c.toNat && c.toNat ≤ 0x20) ||
  c.toNat == 0x85 || c.toNat == 0xa0 || c.toNat == 0x1680 ||
  (0x2000 ≤ c.toNat && c.toNat ≤ 0x200a) ||
  c.toNat == 0x2028 || c.toNat == 0x2029 || c.toNat == 0x202f ||
  c.toNat == 0x205f || c.toNat == 0x3000

/-- Unicode general category Nd (decimal digit) ranges: the characters matched
by `\d` in a Python 3 `re` pattern over `str`. -/
def ndRanges : List (Nat × Nat) :=
  [(0x30, 0x39), (0x660, 0x669), (0x6f0, 0x6f9), (0x7c0, 0x7c9),
   (0x966, 0x96f), (0x9e6, 0x9ef), (0xa66, 0xa6f), (0xae6, 0xaef),
   (0xb66, 0xb6f), (0xbe6, 0xbef), (0xc66, 0xc6f), (0xce6, 0xcef),
   (0xd66, 0xd6f), (0xde6, 0xdef), (0xe50, 0xe59), (0xed0, 0xed9),
   (0xf20, 0xf29), (0x1040, 0x1049), (0x1090, 0x1099), (0x17e0, 0x17e9),
   (0x1810, 0x1819), (0x1946, 0x194f), (0x19d0, 0x19d9), (0x1a80, 0x1a89),
   (0x1a90, 0x1a99), (0x1b50, 0x1b59), (0x1bb0, 0x1bb9), (0x1c40, 0x1c49),
   (0x1c50, 0x1c59), (0xa620, 0xa629), (0xa8d0, 0xa8d9), (0xa900, 0xa909),
   (0xa9d0, 0xa9d9), (0xa9f0, 0xa9f9), (0xaa50, 0xaa59), (0xabf0, 0xabf9),
   (0xff10, 0xff19), (0x104a0, 0x104a9), (0x10d30, 0x10d39),
   (0x11066, 0x1106f), (0x110f0, 0x110f9), (0x11136, 0x1113f),
   (0x111d0, 0x111d9), (0x112f0, 0x112f9), (0x11450, 0x11459),
   (0x114d0, 0x114d9), (0x11650, 0x11659), (0x116c0, 0x116c9),
   (0x11730, 0x11739), (0x118e0, 0x118e9), (0x11950, 0x11959),
   (0x11c50, 0x11c59), (0x11d50, 0x11d59), (0x11da0, 0x11da9),
   (0x11f50, 0x11f59), (0x16a60, 0x16a69), (0x16ac0, 0x16ac9),
   (0x16b50, 0x16b59), (0x1d7ce, 0x1d7ff), (0x1e140, 0x1e149),
   (0x1e2f0, 0x1e2f9), (0x1e4f0, 0x1e4f9), (0x1e950, 0x1e959),
   (0x1fbf0, 0x1fbf9)]

/-- `\d` of Python's `re` module on `str`: any Unicode decimal digit. -/
def isPyDigit (c : Char) : Bool :=
  ndRanges.any (fun p => p.1 ≤ c.toNat && c.toNat ≤ p.2)

/-! ## Python string operations -/

/-- `str.strip()` on a character list. -/
def listStrip (l : List Char) : List Char :=
  ((l.dropWhile pyIsSpace).reverse.dropWhile pyIsSpace).reverse

/-- Python `s.strip()`. -/
def pyStrip (s : String) : String := String.mk (listStrip s.toList)

/-- One left-to-right scan of CPython `str.replace` for a nonempty pattern
`p :: ps`: at each position, if the pattern matches, emit the replacement and
resume after the matched occurrence, else keep the character and move on.
The `fuel` argument only makes the recursion structural; every step consumes
at least one character and exactly one unit of fuel, so with `fuel = l.length`
the fuel never runs out before the list does. -/
def replaceGo (p : Char) (ps rep : List Char) : Nat → List Char → List Char
  | _, [] => []
  | 0, l => l
  | fuel + 1, c :: rest =>
    if (p :: ps).isPrefixOf (c :: rest) then
      rep ++ replaceGo p ps rep fuel (rest.drop ps.length)
    else
      c :: replaceGo p ps rep fuel rest

/-- Scan of `str.replace` for a nonempty pattern. -/
def replaceList (p : Char) (ps rep l : List Char) : List Char :=
  replaceGo p ps rep l.length l

/-- Python `s.replace(pat, rep)` (all non-overlapping occurrences, left to
right; an empty pattern interleaves `rep` around every character). -/
def pyReplace (s pat rep : String) : String :=
  match pat.toList with
  | [] => String.mk (rep.toList ++ s.toList.flatMap (fun c => c :: rep.toList))
  | p :: ps => String.mk (replaceList p ps rep.toList s.toList)

/-- Python `s[:n]`: slicing by code points. -/
def pyTake (s : String) (n : Nat) : String := String.mk (s.toList.take n)

/-! ## A model of `re.fullmatch`: regular expressions with Brzozowski derivatives -/

/-- Regular expressions over characters, enough for the two patterns in the
source (`\d{8}` and `\d{2}-\d{2}-\d{2}`). -/
inductive RE where
  | fail
  | eps
  | cls (p : Char → Bool)
  | alt (r s : RE)
  | seq (r s : RE)

/-- Does the expression accept the empty string? -/
def nullable : RE → Bool
  | .fail => false
  | .eps => true
  | .cls _ => false
  | .alt r s => nullable r || nullable s
  | .seq r s => nullable r && nullable s

/-- Brzozowski derivative with respect to one character. -/
def reDeriv : RE → Char → RE
  | .fail, _ => .fail
  | .eps, _ => .fail
  | .cls p, c => if p c then .eps else .fail
  | .alt r s, c => .alt (reDeriv r c) (reDeriv s c)
  | .seq r s, c =>
    if nullable r then .alt (.seq (reDeriv r c) s) (reDeriv s c)
    else .seq (reDeriv r c) s

/-- Match the whole character list against the expression. -/
def reMatchList (r : RE) (l : List Char) : Bool := nullable (l.foldl reDeriv r)

/-- `re.fullmatch(pattern, s)` converted to `Bool` (the whole string must
match). -/
def reFullmatch (r : RE) (s : String) : Bool := reMatchList r s.toList

/-- The language denoted by a regular expression. -/
def Lang : RE → List Char → Prop
  | .fail, _ => False
  | .eps, l => l = []
  | .cls p, l => ∃ c, l = [c] ∧ p c = true
  | .alt r s, l => Lang r l ∨ Lang s l
  | .seq r s, l => ∃ a b, l = a ++ b ∧ Lang r a ∧ Lang s b

/-- `\d{n}` (the repetition unrolled). -/
def digitsRE : Nat → RE
  | 0 => .eps
  | n + 1 => .seq (.cls isPyDigit) (digitsRE n)

/-- The pattern of `validate_account`: `\d{8}`. -/
def accountRE : RE := digitsRE 8

/-- The pattern of `validate_sort_code`: `\d{2}-\d{2}-\d{2}`. -/
def sortCodeRE : RE :=
  .seq (digitsRE 2) (.seq (.cls (fun c => c == '-'))
    (.seq (digitsRE 2) (.seq (.cls (fun c => c == '-')) (digitsRE 2))))

/-! ## The source's pure functions (`main.py`) -/

/-- `ALLOWED_EXTENSIONS = ["pdf"]` (line 15). -/
def ALLOWED_EXTENSIONS : List String := ["pdf"]

/-- `filename.rsplit('.', 1)[1]` when `'.' in filename`: the characters after
the last dot. -/
def afterLastDot (l : List Char) : List Char :=
  (l.reverse.takeWhile (fun c => c ≠ '.')).reverse

/-- `allowed_file` (line 28): the filename contains a dot and the lowercased
part after the last dot is in `ALLOWED_EXTENSIONS`. -/
def allowed_file (filename : String) : Bool :=
  filename.toList.contains '.' &&
    ALLOWED_EXTENSIONS.contains (String.mk ((afterLastDot filename.toList).map Char.toLower))

/-- `extract_text_from_pdf` (line 32): concatenate each page's extracted text
followed by a newline, skipping pages whose text is falsy (`None` or empty). -/
def extract_text_from_pdf (pages : List (Option String)) : String :=
  pages.foldl (fun full_text page =>
    match page with
    | some text => if text ≠ "" then full_text ++ text ++ "\n" else full_text
    | none => full_text) ""

/-- `validate_account` (line 77): `bool(re.fullmatch(r"\d\x7b8\x7d", acc))`. -/
def validate_account (acc : String) : Bool := reFullmatch accountRE acc

/-- `validate_sort_code` (line 82):
`bool(re.fullmatch(r"\d\x7b2\x7d-\d\x7b2\x7d-\d\x7b2\x7d", code))`. -/
def validate_sort_code (code : String) : Bool := reFullmatch sortCodeRE code

/-! ## JSON-decoded Python values and the HTTP handlers -/

/-- Values produced by `json.loads` (numbers restricted to integers; no claim
depends on non-integral numerics). -/
inductive JValue where
  | null
  | bool (b : Bool)
  | num (n : Int)
  | str (s : String)
  | arr (items : List JValue)
  | obj (fields : List (String × JValue))

/-- Python truthiness (`if not data:`) of a JSON-decoded value. -/
def pyTruthy : JValue → Bool
  | .null => false
  | .bool b => b
  | .num n => n != 0
  | .str s => s ≠ ""
  | .arr items => !items.isEmpty
  | .obj fields => !fields.isEmpty

/-- `data.get(k, d)` on a decoded JSON object (`fields` models a Python dict,
so keys are unique). -/
def dictGet (fields : List (String × JValue)) (k : String) (d : JValue) : JValue :=
  match fields.find? (fun p => p.1 == k) with
  | some p => p.2
  | none => d

/-- `validate_account` applied to an arbitrary decoded JSON value, as the
handlers do: `re.fullmatch` raises `TypeError` unless the argument is a
string. -/
def validate_account_value : JValue → Except String Bool
  | .str s => .ok (validate_account s)
  | _ => .error "TypeError: expected string or bytes-like object"

/-- `validate_sort_code` applied to an arbitrary decoded JSON value. -/
def validate_sort_code_value : JValue → Except String Bool
  | .str s => .ok (validate_sort_code s)
  | _ => .error "TypeError: expected string or bytes-like object"

/-- An HTTP response: status code and JSON body. -/
structure HttpResp where
  status : Nat
  body : JValue

/-- `jsonify({"error": m})`. -/
def errBody (m : String) : JValue := .obj [("error", .str m)]

/-- `jsonify({"error": m, "details": str(e)})`. -/
def errBody2 (m d : String) : JValue :=
  .obj [("error", .str m), ("details", .str d)]

/-- The `/validate` handler `validate_data` (line 171), applied to the decoded
request body (`request.get_json()`; `None` is modelled by `JValue.null`).
A falsy body gives 400; a non-dict truthy body raises `AttributeError` at
`data.get`, caught by the broad handler as a 500. -/
def validate_data (data : JValue) : HttpResp :=
  if pyTruthy data then
    match data with
    | .obj fields =>
      match validate_account_value (dictGet fields "account_number" (.str "")) with
      | .error e => ⟨500, errBody2 "Validation failed" e⟩
      | .ok account_valid =>
        match validate_sort_code_value (dictGet fields "sort_code" (.str "")) with
        | .error e => ⟨500, errBody2 "Validation failed" e⟩
        | .ok sort_code_valid =>
          ⟨200, .obj [("account_number", dictGet fields "account_number" (.str "")),
                      ("account_valid", .bool account_valid),
                      ("sort_code", dictGet fields "sort_code" (.str "")),
                      ("sort_code_valid", .bool sort_code_valid)]⟩
    | _ => ⟨500, errBody2 "Validation failed" "AttributeError"⟩
  else ⟨400, errBody "No JSON data provided"⟩

/-! ## The `/parse-statement` handler -/

/-- The external collaborators of `parse_statement`: werkzeug's
`secure_filename`, pdfplumber (a path's pages, each `page.extract_text()`
being `None` or a string; a raised exception is `.error`), the Gemini client
(`model.generate_content(...).text`), and `json.loads`. -/
structure Collab where
  secure_filename : String → String
  pdf_pages : String → Except String (List (Option String))
  generate_content : String → Except String String
  json_loads : String → Except String JValue

/-- The f-string prompt of `extract_bank_data_with_gemini` (line 45). -/
def geminiPrompt (statement_text : String) : String :=
  "\nYou are an expert UK bank statement parser.\nExtract information from ANY UK bank statement.\nRULES:\n- Account number = 8 digits\n- Sort code format = XX-XX-XX\n- Currency = GBP\n- Identify debit vs credit automatically\n- Return ONLY valid JSON\n- Use null where data is missing\nJSON FORMAT:\n\x7b\n  \"account_number\": \"\",\n  \"sort_code\": \"\",\n  \"currency\": \"GBP\",\n  \"transactions\": [\n    \x7b\n      \"date\": \"\",\n      \"description\": \"\",\n      \"debit\": null,\n      \"credit\": null,\n      \"balance\": null\n    \x7d\n  ]\n\x7d\nSTATEMENT TEXT:\n"
  ++ statement_text ++ "\n"

/-- `extract_bank_data_with_gemini` (line 43): build the prompt and invoke the
model once. -/
def extract_bank_data_with_gemini (c : Collab) (statement_text : String) :
    Except String String :=
  c.generate_content (geminiPrompt statement_text)

/-- Line 132: `ai_output.strip().replace("```json", "").replace("```", "")`. -/
def clean_ai_output (ai_output : String) : String :=
  pyReplace (pyReplace (pyStrip ai_output) "```json" "") "```" ""

/-- `UPLOAD_FOLDER = "uploads"` (line 14). -/
def UPLOAD_FOLDER : String := "uploads"

/-- `os.path.join` with a relative folder and a bare filename. -/
def pathJoin (a b : String) : String := a ++ "/" ++ b

/-- `file.save(filepath)`: the path now exists. -/
def savePath (fs : List String) (p : String) : List String :=
  if fs.contains p then fs else p :: fs

/-- `os.remove(filepath)`: the path no longer exists. -/
def removePath (fs : List String) (p : String) : List String :=
  fs.filter (fun q => q ≠ p)

/-- Outcome of one `/parse-statement` request: status, JSON body, and the set
of paths existing on disk afterwards. -/
structure POut where
  status : Nat
  body : JValue
  fs : List String

/-- The `/parse-statement` handler `parse_statement` (line 93), over the
collaborators `c`, the initial filesystem `fs0`, and the request's `file`
field (`none` when absent, otherwise the uploaded filename). Mirrors the
source's control flow, including the two `except` clauses: a
`json.JSONDecodeError` returns 500 without touching the file; any other
exception removes the file (if it exists) and returns 500. -/
def parse_statement (c : Collab) (fs0 : List String) (fileField : Option String) : POut :=
  match fileField with
  | none => ⟨400, errBody "No file provided", fs0⟩
  | some filename =>
    if filename = "" then ⟨400, errBody "No file selected", fs0⟩
    else if allowed_file filename then
      let filepath := pathJoin UPLOAD_FOLDER (c.secure_filename filename)
      let fs1 := savePath fs0 filepath
      match c.pdf_pages filepath with
      | .error e => ⟨500, errBody2 "An error occurred while processing the file" e,
          removePath fs1 filepath⟩
      | .ok pages =>
        let statement_text := extract_text_from_pdf pages
        if pyStrip statement_text = "" then
          ⟨400, errBody "Could not extract text from PDF", removePath fs1 filepath⟩
        else
          match extract_bank_data_with_gemini c statement_text with
          | .error e => ⟨500, errBody2 "An error occurred while processing the file" e,
              removePath fs1 filepath⟩
          | .ok ai_output =>
            match c.json_loads (clean_ai_output ai_output) with
            | .error e => ⟨500, errBody2 "Failed to parse AI response as JSON" e, fs1⟩
            | .ok data =>
              match data with
              | .obj fields =>
                match validate_account_value (dictGet fields "account_number" (.str "")) with
                | .error e => ⟨500, errBody2 "An error occurred while processing the file" e,
                    removePath fs1 filepath⟩
                | .ok account_valid =>
                  match validate_sort_code_value (dictGet fields "sort_code" (.str "")) with
                  | .error e => ⟨500, errBody2 "An error occurred while processing the file" e,
                      removePath fs1 filepath⟩
                  | .ok sort_code_valid =>
                    ⟨200, .obj [("success", .bool true), ("data", data),
                        ("validation", .obj [("account_number_valid", .bool account_valid),
                          ("sort_code_valid", .bool sort_code_valid)]),
                        ("extracted_text_preview", .str (pyTake statement_text 500))],
                      removePath fs1 filepath⟩
              | _ => ⟨500, errBody2 "An error occurred while processing the file" "AttributeError",
                  removePath fs1 filepath⟩
    else ⟨400, errBody "Only PDF files are allowed", fs0⟩

/-- The `"error"` field of a response body, used to tell exit paths apart. -/
def bodyError : JValue → Option String
  | .obj (("error", .str m) :: _) => some m
  | _ => none

/-! ## Correctness of the derivative matcher -/

theorem nullable_iff (r : RE) : nullable r = true ↔ Lang r [] := by
  induction r with
  | fail => simp [nullable, Lang]
  | eps => simp [nullable, Lang]
  | cls p => simp [nullable, Lang]
  | alt r s ihr ihs => simp [nullable, Lang, ihr, ihs]
  | seq r s ihr ihs =>
    simp only [nullable, Bool.and_eq_true, ihr, ihs, Lang]
    constructor
    · rintro ⟨hr, hs⟩
      exact ⟨[], [], rfl, hr, hs⟩
    · rintro ⟨a, b, hab, hr, hs⟩
      rcases List.append_eq_nil.mp hab.symm with ⟨ha, hb⟩
      subst ha; subst hb
      exact ⟨hr, hs⟩

theorem reDeriv_iff (r : RE) (c : Char) (l : List Char) :
    Lang (reDeriv r c) l ↔ Lang r (c :: l) := by
  induction r generalizing l with
  | fail => simp [reDeriv, Lang]
  | eps => simp [reDeriv, Lang]
  | cls p =>
    by_cases h : p c
    · simp only [reDeriv, h, if_true, Lang]
      constructor
      · rintro rfl
        exact ⟨c, rfl, h⟩
      · rintro ⟨d, hd, _⟩
        simp only [List.cons.injEq] at hd
        exact hd.2
    · simp only [reDeriv, h, if_false, Lang, false_iff]
      rintro ⟨d, hd, hpd⟩
      injection hd with h1 h2
      subst h1
      exact h (by simpa using hpd)
  | alt r s ihr ihs => simp [reDeriv, Lang, ihr, ihs]
  | seq r s ihr ihs =>
    by_cases h : nullable r
    · simp only [reDeriv, h, if_true, Lang, ihr, ihs]
      constructor
      · rintro (⟨a, b, rfl, hr, hs⟩ | hs)
        · exact ⟨c :: a, b, rfl, hr, hs⟩
        · exact ⟨[], c :: l, rfl, (nullable_iff r).mp h, hs⟩
      · rintro ⟨a, b, hab, hr, hs⟩
        cases a with
        | nil =>
          right
          simp only [List.nil_append] at hab
          subst hab
          exact hs
        | cons a0 a' =>
          left
          injection hab with h1 h2
          subst h1
          exact ⟨a', b, h2, hr, hs⟩
    · simp only [reDeriv, h, if_false, Lang, ihr]
      constructor
      · rintro ⟨a, b, rfl, hr, hs⟩
        exact ⟨c :: a, b, rfl, hr, hs⟩
      · rintro ⟨a, b, hab, hr, hs⟩
        cases a with
        | nil =>
          exact absurd ((nullable_iff r).mpr hr) h
        | cons a0 a' =>
          injection hab with h1 h2
          subst h1
          exact ⟨a', b, h2, hr, hs⟩

theorem reMatchList_iff (l : List Char) : ∀ r : RE, reMatchList r l = true ↔ Lang r l := by
  induction l with
  | nil => exact fun r => nullable_iff r
  | cons c t ih =>
    intro r
    have hstep : reMatchList r (c :: t) = reMatchList (reDeriv r c) t := rfl
    rw [hstep, ih (reDeriv r c), reDeriv_iff]

/-! ## Characterizing the two patterns -/

theorem Lang_digitsRE (n : Nat) (l : List Char) :
    Lang (digitsRE n) l ↔ l.length = n ∧ ∀ c ∈ l, isPyDigit c = true := by
  induction n generalizing l with
  | zero =>
    simp only [digitsRE, Lang, List.length_eq_zero]
    constructor
    · rintro rfl
      exact ⟨rfl, by simp⟩
    · rintro ⟨rfl, _⟩
      rfl
  | succ n ih =>
    simp only [digitsRE, Lang]
    constructor
    · rintro ⟨a, b, rfl, ⟨c, rfl, hc⟩, hb⟩
      rcases (ih b).mp hb with ⟨hlen, hall⟩
      refine ⟨by simp [hlen], ?_⟩
      intro d hd
      rcases List.mem_cons.mp (by simpa using hd) with rfl | hdb
      · exact hc
      · exact hall d hdb
    · rintro ⟨hlen, hall⟩
      cases l with
      | nil => simp at hlen
      | cons c t =>
        refine ⟨[c], t, rfl, ⟨c, rfl, hall c (by simp)⟩, (ih t).mpr ⟨by simpa using hlen, ?_⟩⟩
        intro d hd
        exact hall d (List.mem_cons_of_mem c hd)

theorem Lang_digits_two (l : List Char) :
    Lang (digitsRE 2) l ↔ ∃ a b : Char, l = [a, b] ∧ isPyDigit a = true ∧ isPyDigit b = true := by
  rw [Lang_digitsRE]
  constructor
  · rintro ⟨hlen, hall⟩
    rcases List.length_eq_two.mp hlen with ⟨a, b, rfl⟩
    exact ⟨a, b, rfl, hall a (by simp), hall b (by simp)⟩
  · rintro ⟨a, b, rfl, h1, h2⟩
    refine ⟨rfl, ?_⟩
    intro c hc
    rcases (by simpa using hc : c = a ∨ c = b) with rfl | rfl
    · exact h1
    · exact h2

/-! ## Claims C1, C2, C3: the validators -/

/-- A string of eight ARABIC-INDIC DIGIT ZERO characters (U+0660), each a
Unicode decimal digit but not an ASCII digit. -/
def arabicEights : String := String.mk (List.replicate 8 (Char.ofNat 0x660))

/-- Claim C1, as stated, is false: `validate_account` uses `re.fullmatch` with
`\d`, which matches any Unicode decimal digit, so a string of eight
ARABIC-INDIC digits returns true even though it contains no ASCII digit. -/
theorem validate_account_not_ascii_only :
    ¬ (validate_account arabicEights = true ↔
        (arabicEights.toList.length = 8 ∧ ∀ c ∈ arabicEights.toList, c.isDigit = true)) := by
  decide

/-- Claim C1 (amended): for every string `value`, `validate_account value`
returns true iff `value` consists of exactly 8 Unicode decimal digits
(category Nd, the characters Python's `\d` matches); any string differing in
length or containing a character that is not a Unicode decimal digit returns
false. -/
theorem validate_account_iff_digits (s : String) :
    validate_account s = true ↔
      (s.toList.length = 8 ∧ ∀ c ∈ s.toList, isPyDigit c = true) := by
  rw [validate_account, reFullmatch, reMatchList_iff, accountRE, Lang_digitsRE]

/-- Claim C2: for every string `value`, `validate_sort_code value` returns
true iff `value` matches exactly `DD-DD-DD` — two decimal digits (Unicode
decimal digits, the characters Python's `\d` matches), a hyphen, two digits,
a hyphen, two digits; any deviation returns false. -/
theorem validate_sort_code_iff (s : String) :
    validate_sort_code s = true ↔
      ∃ d1 d2 d3 d4 d5 d6 : Char,
        s.toList = [d1, d2, '-', d3, d4, '-', d5, d6] ∧
        isPyDigit d1 = true ∧ isPyDigit d2 = true ∧ isPyDigit d3 = true ∧
        isPyDigit d4 = true ∧ isPyDigit d5 = true ∧ isPyDigit d6 = true := by
  rw [validate_sort_code, reFullmatch, reMatchList_iff, sortCodeRE]
  simp only [Lang]
  constructor
  · rintro ⟨a, b, hs, ha, c, d, rfl, ⟨x, rfl, hx⟩, e, f, rfl, he, g, h, rfl, ⟨y, rfl, hy⟩, hh⟩
    rcases (Lang_digits_two a).mp ha with ⟨d1, d2, rfl, h1, h2⟩
    rcases (Lang_digits_two e).mp he with ⟨d3, d4, rfl, h3, h4⟩
    rcases (Lang_digits_two h).mp hh with ⟨d5, d6, rfl, h5, h6⟩
    have hx' : x = '-' := by simpa using hx
    have hy' : y = '-' := by simpa using hy
    subst hx'; subst hy'
    exact ⟨d1, d2, d3, d4, d5, d6, by simpa using hs, h1, h2, h3, h4, h5, h6⟩
  · rintro ⟨d1, d2, d3, d4, d5, d6, hs, h1, h2, h3, h4, h5, h6⟩
    refine ⟨[d1, d2], ['-'] ++ ([d3, d4] ++ (['-'] ++ [d5, d6])), by simpa using hs,
      (Lang_digits_two _).mpr ⟨d1, d2, rfl, h1, h2⟩,
      ['-'], [d3, d4] ++ (['-'] ++ [d5, d6]), rfl, ⟨'-', rfl, by decide⟩,
      [d3, d4], ['-'] ++ [d5, d6], rfl,
      (Lang_digits_two _).mpr ⟨d3, d4, rfl, h3, h4⟩,
      ['-'], [d5, d6], rfl, ⟨'-', rfl, by decide⟩,
      (Lang_digits_two _).mpr ⟨d5, d6, rfl, h5, h6⟩⟩

/-- Claim C3, as stated, is false: a `null` (Python `None`) field value is not
treated as the empty string — passing it to either validator raises
`TypeError` inside `re.fullmatch`. -/
theorem validators_raise_on_null :
    validate_account_value JValue.null =
        .error "TypeError: expected string or bytes-like object" ∧
      validate_sort_code_value JValue.null =
        .error "TypeError: expected string or bytes-like object" :=
  ⟨rfl, rfl⟩

/-- Claim C3 (amended): both validators are total and never raise on every
string input (absent fields are substituted with the empty string by the
handlers' `dict.get(key, "")` before the call); only a non-string value such
as JSON `null` raises. -/
theorem validators_total_on_strings (s : String) :
    validate_account_value (.str s) = .ok (validate_account s) ∧
      validate_sort_code_value (.str s) = .ok (validate_sort_code s) :=
  ⟨rfl, rfl⟩

/-! ## Claim C4: `/validate` with the empty JSON object -/

/-- Claim C4, as stated, is false: the empty JSON object is falsy in Python,
so `if not data:` fires and `/validate` answers 400 "No JSON data provided",
not a 200 with two false booleans. -/
theorem validate_data_empty_obj_400 :
    validate_data (JValue.obj []) = ⟨400, errBody "No JSON data provided"⟩ ∧
      (validate_data (JValue.obj [])).status ≠ 200 :=
  ⟨rfl, by decide⟩

/-- Claim C4 (amended): a POST to `/validate` whose JSON body is the empty
object gets a 400 error ("No JSON data provided") because the empty dict is
falsy; any nonempty JSON object lacking both `account_number` and `sort_code`
gets the 200 response in which both validity booleans are false and both
echoed fields are the empty string. -/
theorem validate_data_missing_fields (fields : List (String × JValue))
    (hne : fields ≠ [])
    (hacc : ∀ p ∈ fields, p.1 ≠ "account_number")
    (hsc : ∀ p ∈ fields, p.1 ≠ "sort_code") :
    validate_data (JValue.obj []) = ⟨400, errBody "No JSON data provided"⟩ ∧
      validate_data (JValue.obj fields) =
        ⟨200, JValue.obj [("account_number", JValue.str ""), ("account_valid", JValue.bool false),
          ("sort_code", JValue.str ""), ("sort_code_valid", JValue.bool false)]⟩ := by
  refine ⟨rfl, ?_⟩
  have h1 : dictGet fields "account_number" (.str "") = .str "" := by
    unfold dictGet
    rw [List.find?_eq_none.mpr]
    intro p hp
    simpa using hacc p hp
  have h2 : dictGet fields "sort_code" (.str "") = .str "" := by
    unfold dictGet
    rw [List.find?_eq_none.mpr]
    intro p hp
    simpa using hsc p hp
  have htru : pyTruthy (JValue.obj fields) = true := by
    simp [pyTruthy, hne]
  simp only [validate_data, htru, if_true, h1, h2]
  rfl

theorem validate_data_missing_fields_witness :
    validate_data (JValue.obj []) = ⟨400, errBody "No JSON data provided"⟩ ∧
      validate_data (JValue.obj [("x", JValue.null)]) =
        ⟨200, JValue.obj [("account_number", JValue.str ""), ("account_valid", JValue.bool false),
          ("sort_code", JValue.str ""), ("sort_code_valid", JValue.bool false)]⟩ :=
  validate_data_missing_fields [("x", JValue.null)] (by simp)
    (by
      intro p hp
      rcases List.mem_singleton.mp hp with rfl
      decide)
    (by
      intro p hp
      rcases List.mem_singleton.mp hp with rfl
      decide)

/-! ## Claim C10: `allowed_file` -/

/-- If `'.' ∈ r` then `dropWhile (· ≠ '.')` reaches a dot. -/
theorem dropWhile_dot_decomp (r : List Char) (h : '.' ∈ r) :
    ∃ w, r.dropWhile (fun c => c ≠ '.') = '.' :: w := by
  induction r with
  | nil => simp at h
  | cons c t ih =>
    by_cases hc : c = '.'
    · subst hc
      exact ⟨t, by simp [List.dropWhile_cons]⟩
    · have hct : '.' ∈ t := by
        rcases List.mem_cons.mp h with h' | h'
        · exact absurd h'.symm hc
        · exact h'
      rcases ih hct with ⟨w, hw⟩
      refine ⟨w, ?_⟩
      rw [List.dropWhile_cons_of_pos (by simp [hc])]
      exact hw

/-- `takeWhile` stops exactly at the first failing element. -/
theorem takeWhile_append_stop (p : Char → Bool) (xs ys : List Char) (y : Char)
    (hxs : ∀ x ∈ xs, p x = true) (hy : p y = false) :
    (xs ++ y :: ys).takeWhile p = xs := by
  induction xs with
  | nil => simp [List.takeWhile_cons, hy]
  | cons x xs' ih =>
    have hx : p x = true := hxs x (by simp)
    simp only [List.cons_append, List.takeWhile_cons, hx, if_true]
    rw [ih]
    intro z hz
    exact hxs z (List.mem_cons_of_mem x hz)

/-- Claim C10: `allowed_file f` is true iff `f` splits as `a ++ "." ++ b`
where `b` is dot-free and lowercases to `"pdf"` — i.e. `f` contains a dot and
the part after the last dot is `pdf` case-insensitively. In particular a bare
`"pdf"` (no dot) is rejected while `"a.PDF"` and `".pdf"` are accepted. -/
theorem allowed_file_iff (f : String) :
    allowed_file f = true ↔
      ∃ a b : List Char, f.toList = a ++ '.' :: b ∧ '.' ∉ b ∧
        b.map Char.toLower = ['p', 'd', 'f'] := by
  unfold allowed_file ALLOWED_EXTENSIONS
  constructor
  · intro h
    rcases Bool.and_eq_true_iff.mp h with ⟨hdot, hext⟩
    have hdot' : '.' ∈ f.toList := by
      have := List.contains_iff_exists_mem_beq.mp hdot
      rcases this with ⟨x, hx, hbeq⟩
      rcases eq_of_beq hbeq with rfl
      exact hx
    have hmem : '.' ∈ f.toList.reverse := List.mem_reverse.mpr hdot'
    rcases dropWhile_dot_decomp f.toList.reverse hmem with ⟨w, hw⟩
    have hsplit : f.toList.reverse =
        f.toList.reverse.takeWhile (fun c => c ≠ '.') ++ '.' :: w := by
      conv_lhs => rw [← List.takeWhile_append_dropWhile (fun c => decide (c ≠ '.')) f.toList.reverse]
      rw [hw]
    have hl : f.toList = w.reverse ++ '.' :: (f.toList.reverse.takeWhile (fun c => c ≠ '.')).reverse := by
      have := congrArg List.reverse hsplit
      simpa [List.reverse_append] using this
    refine ⟨w.reverse, (f.toList.reverse.takeWhile (fun c => c ≠ '.')).reverse, hl, ?_, ?_⟩
    · intro hmem'
      have : '.' ∈ f.toList.reverse.takeWhile (fun c => c ≠ '.') :=
        List.mem_reverse.mp hmem'
      have := List.mem_takeWhile_imp this
      simp at this
    · have hext' : String.mk ((afterLastDot f.toList).map Char.toLower) = "pdf" := by
        have := List.contains_iff_exists_mem_beq.mp hext
        rcases this with ⟨x, hx, hbeq⟩
        rcases List.mem_singleton.mp hx with rfl
        exact eq_of_beq hbeq
      have : (afterLastDot f.toList).map Char.toLower = "pdf".toList := by
        have := congrArg String.toList hext'
        simpa using this
      simpa [afterLastDot] using this
  · rintro ⟨a, b, hl, hnb, hmap⟩
    have hafter : afterLastDot f.toList = b := by
      unfold afterLastDot
      rw [hl]
      rw [List.reverse_append]
      simp only [List.reverse_cons, List.append_assoc, List.singleton_append]
      rw [takeWhile_append_stop _ b.reverse a.reverse '.'
        (by
          intro x hx
          have : x ∈ b := List.mem_reverse.mp hx
          simp only [decide_eq_true_eq]
          intro hxeq
          exact hnb (hxeq ▸ this))
        (by simp)]
      simp
    rw [Bool.and_eq_true_iff]
    constructor
    · have : '.' ∈ f.toList := by
        rw [hl]
        exact List.mem_append.mpr (Or.inr (List.mem_cons_self _ _))
      exact List.elem_iff.mpr this
    · have : String.mk ((afterLastDot f.toList).map Char.toLower) = "pdf" := by
        rw [hafter, hmap]
      rw [this]
      rfl

/-! ## Filesystem helper lemmas -/

theorem not_mem_removePath (fs : List String) (p : String) : p ∉ removePath fs p := by
  unfold removePath
  intro h
  have := List.mem_filter.mp h
  simp at this

theorem mem_savePath_self (fs : List String) (p : String) : p ∈ savePath fs p := by
  unfold savePath
  split
  · next h => exact List.elem_iff.mp h
  · exact List.mem_cons_self p fs

/-! ## Claim C8: bad uploads are rejected before anything is written -/

/-- Claim C8: a POST to `/parse-statement` with a missing file field, an empty
filename, or a filename `allowed_file` rejects (no `.pdf` extension) returns
400, and the filesystem is untouched — no file is written. -/
theorem parse_statement_rejects_bad_upload (c : Collab) (fs0 : List String)
    (req : Option String)
    (h : req = none ∨ ∃ fn, req = some fn ∧ (fn = "" ∨ allowed_file fn = false)) :
    (parse_statement c fs0 req).status = 400 ∧ (parse_statement c fs0 req).fs = fs0 := by
  rcases h with rfl | ⟨fn, rfl, hfn⟩
  · exact ⟨rfl, rfl⟩
  · by_cases hfe : fn = ""
    · subst hfe
      exact ⟨rfl, rfl⟩
    · rcases hfn with rfl | hall
      · exact absurd rfl hfe
      · constructor
        · simp only [parse_statement]
          rw [if_neg hfe, if_neg (by simp [hall])]
        · simp only [parse_statement]
          rw [if_neg hfe, if_neg (by simp [hall])]

/-- A stub set of collaborators (never reached on the early-reject paths). -/
def collabStub : Collab where
  secure_filename := fun s => s
  pdf_pages := fun _ => .ok []
  generate_content := fun _ => .ok ""
  json_loads := fun _ => .error "stub"

theorem parse_statement_rejects_bad_upload_witness :
    (parse_statement collabStub [] (some "a.txt")).status = 400 ∧
      (parse_statement collabStub [] (some "a.txt")).fs = [] :=
  parse_statement_rejects_bad_upload collabStub [] (some "a.txt")
    (Or.inr ⟨"a.txt", rfl, Or.inr (by decide)⟩)

/-! ## Claim C7: empty extracted text -/

/-- Claim C7: if the text extracted from the PDF is empty or whitespace-only,
`/parse-statement` deletes the temporary file and answers 400 "Could not
extract text from PDF"; the result does not depend on the interpreter
(`generate_content` is never consulted). -/
theorem parse_statement_empty_text (c : Collab) (fs0 : List String) (fn : String)
    (hfe : fn ≠ "") (hall : allowed_file fn = true)
    (pages : List (Option String))
    (hpg : c.pdf_pages (pathJoin UPLOAD_FOLDER (c.secure_filename fn)) = .ok pages)
    (hempty : pyStrip (extract_text_from_pdf pages) = "") :
    parse_statement c fs0 (some fn) =
      ⟨400, errBody "Could not extract text from PDF",
        removePath (savePath fs0 (pathJoin UPLOAD_FOLDER (c.secure_filename fn)))
          (pathJoin UPLOAD_FOLDER (c.secure_filename fn))⟩ ∧
      pathJoin UPLOAD_FOLDER (c.secure_filename fn) ∉ (parse_statement c fs0 (some fn)).fs ∧
      ∀ g : String → Except String String,
        parse_statement { c with generate_content := g } fs0 (some fn) =
          parse_statement c fs0 (some fn) := by
  have key : ∀ g : String → Except String String,
      parse_statement { c with generate_content := g } fs0 (some fn) =
        ⟨400, errBody "Could not extract text from PDF",
          removePath (savePath fs0 (pathJoin UPLOAD_FOLDER (c.secure_filename fn)))
            (pathJoin UPLOAD_FOLDER (c.secure_filename fn))⟩ := by
    intro g
    simp only [parse_statement]
    rw [if_neg hfe, if_pos hall]
    simp only [hpg, hempty, if_pos]
  have keyc : parse_statement c fs0 (some fn) =
      ⟨400, errBody "Could not extract text from PDF",
        removePath (savePath fs0 (pathJoin UPLOAD_FOLDER (c.secure_filename fn)))
          (pathJoin UPLOAD_FOLDER (c.secure_filename fn))⟩ := by
    have := key c.generate_content
    simpa using this
  refine ⟨keyc, ?_, ?_⟩
  · rw [keyc]
    exact not_mem_removePath _ _
  · intro g
    rw [key g, keyc]

/-- Collaborators whose PDF extraction yields a single whitespace-only page. -/
def collabBlank : Collab where
  secure_filename := fun s => s
  pdf_pages := fun _ => .ok [some " "]
  generate_content := fun _ => .ok ""
  json_loads := fun _ => .error "stub"

theorem parse_statement_empty_text_witness :
    parse_statement collabBlank [] (some "s.pdf") =
      ⟨400, errBody "Could not extract text from PDF",
        removePath (savePath [] (pathJoin UPLOAD_FOLDER (collabBlank.secure_filename "s.pdf")))
          (pathJoin UPLOAD_FOLDER (collabBlank.secure_filename "s.pdf"))⟩ ∧
      pathJoin UPLOAD_FOLDER (collabBlank.secure_filename "s.pdf") ∉
        (parse_statement collabBlank [] (some "s.pdf")).fs ∧
      ∀ g : String → Except String String,
        parse_statement { collabBlank with generate_content := g } [] (some "s.pdf") =
          parse_statement collabBlank [] (some "s.pdf") :=
  parse_statement_empty_text collabBlank [] "s.pdf" (by decide) (by decide)
    [some " "] rfl (by decide)

/-! ## Claim C9: the success path -/

/-- Claim C9: when every step succeeds, `/parse-statement` answers 200 with
`success = true`, the parsed structured data verbatim, the two validation
booleans computed by `validate_account` / `validate_sort_code` on the
`account_number` / `sort_code` fields (absent fields defaulting to the empty
string via `dict.get`, hence invalid), and exactly the first 500 characters
of the extracted raw text as `extracted_text_preview`; the temporary file is
removed. -/
theorem parse_statement_success (c : Collab) (fs0 : List String) (fn : String)
    (hfe : fn ≠ "") (hall : allowed_file fn = true)
    (pages : List (Option String))
    (hpg : c.pdf_pages (pathJoin UPLOAD_FOLDER (c.secure_filename fn)) = .ok pages)
    (hnonempty : ¬ pyStrip (extract_text_from_pdf pages) = "")
    (ai : String)
    (hai : c.generate_content (geminiPrompt (extract_text_from_pdf pages)) = .ok ai)
    (fields : List (String × JValue))
    (hjson : c.json_loads (clean_ai_output ai) = .ok (.obj fields))
    (a sc : String)
    (hacc : dictGet fields "account_number" (.str "") = .str a)
    (hsc : dictGet fields "sort_code" (.str "") = .str sc) :
    parse_statement c fs0 (some fn) =
      ⟨200, .obj [("success", .bool true), ("data", .obj fields),
          ("validation", .obj [("account_number_valid", .bool (validate_account a)),
            ("sort_code_valid", .bool (validate_sort_code sc))]),
          ("extracted_text_preview", .str (pyTake (extract_text_from_pdf pages) 500))],
        removePath (savePath fs0 (pathJoin UPLOAD_FOLDER (c.secure_filename fn)))
          (pathJoin UPLOAD_FOLDER (c.secure_filename fn))⟩ := by
  simp only [parse_statement]
  rw [if_neg hfe, if_pos hall]
  simp only [hpg, extract_bank_data_with_gemini, hai, hjson, hacc, hsc, if_neg hnonempty]
  rfl

/-- Collaborators that run the whole pipeline to a successful answer. -/
def collabOk : Collab where
  secure_filename := fun s => s
  pdf_pages := fun _ => .ok [some "Account 12345678 sort 11-22-33"]
  generate_content := fun _ => .ok "irrelevant"
  json_loads := fun _ =>
    .ok (.obj [("account_number", .str "12345678"), ("sort_code", .str "11-22-33")])

theorem parse_statement_success_witness :
    parse_statement collabOk [] (some "s.pdf") =
      ⟨200, .obj [("success", .bool true),
          ("data", .obj [("account_number", .str "12345678"), ("sort_code", .str "11-22-33")]),
          ("validation", .obj [("account_number_valid", .bool true),
            ("sort_code_valid", .bool true)]),
          ("extracted_text_preview", .str "Account 12345678 sort 11-22-33\n")],
        removePath (savePath [] (pathJoin UPLOAD_FOLDER (collabOk.secure_filename "s.pdf")))
          (pathJoin UPLOAD_FOLDER (collabOk.secure_filename "s.pdf"))⟩ := by
  have h := parse_statement_success collabOk [] "s.pdf" (by decide) (by decide)
    [some "Account 12345678 sort 11-22-33"] rfl (by decide)
    "irrelevant" rfl
    [("account_number", .str "12345678"), ("sort_code", .str "11-22-33")] rfl
    "12345678" "11-22-33" rfl rfl
  have hv1 : validate_account "12345678" = true := by decide
  have hv2 : validate_sort_code "11-22-33" = true := by decide
  have hv3 : pyTake (extract_text_from_pdf [some "Account 12345678 sort 11-22-33"]) 500 =
      "Account 12345678 sort 11-22-33\n" := by decide
  rw [hv1, hv2, hv3] at h
  exact h

/-! ## Claim C5: temporary-file cleanup -/

theorem ne_failed_msg_of (m : String)
    (hm : m ≠ "Failed to parse AI response as JSON")
    {X : Option String} (hx : X = some m) :
    ¬ X = some "Failed to parse AI response as JSON" := by
  subst hx
  intro hc
  exact hm (Option.some.inj hc)

theorem not_some_failed_of_none {X : Option String} (hx : X = none) :
    ¬ X = some "Failed to parse AI response as JSON" := by
  subst hx
  intro hc
  cases hc

/-- When `json.loads` returns a non-dict value, `data.get` raises
`AttributeError`, caught by the broad handler: 500 and the file is removed. -/
theorem parse_statement_nonobj_leaf (c : Collab) (fs0 : List String) (fn : String)
    (hfe : ¬ fn = "") (hall : allowed_file fn = true)
    (pages : List (Option String))
    (hpg : c.pdf_pages (pathJoin UPLOAD_FOLDER (c.secure_filename fn)) = .ok pages)
    (hstrip : ¬ pyStrip (extract_text_from_pdf pages) = "")
    (ai : String)
    (hai : c.generate_content (geminiPrompt (extract_text_from_pdf pages)) = .ok ai)
    (data : JValue)
    (hjson : c.json_loads (clean_ai_output ai) = .ok data)
    (hnotobj : ∀ fields, data ≠ .obj fields) :
    parse_statement c fs0 (some fn) =
      ⟨500, errBody2 "An error occurred while processing the file" "AttributeError",
        removePath (savePath fs0 (pathJoin UPLOAD_FOLDER (c.secure_filename fn)))
          (pathJoin UPLOAD_FOLDER (c.secure_filename fn))⟩ := by
  simp only [parse_statement]
  rw [if_neg hfe, if_pos hall]
  simp only [hpg, if_neg hstrip, extract_bank_data_with_gemini, hai, hjson]

/-- Collaborators whose interpreter output fails to parse as JSON. -/
def collabBadJson : Collab where
  secure_filename := fun s => s
  pdf_pages := fun _ => .ok [some "hello"]
  generate_content := fun _ => .ok "not json"
  json_loads := fun _ => .error "Expecting value: line 1 column 1 (char 0)"

/-- Claim C5, as stated, is false: on the interpreter-response JSON parse
failure path the `except json.JSONDecodeError` clause returns 500 without
deleting the stored upload, so the temporary file survives that exit path. -/
theorem parse_statement_json_error_leaks_file :
    (parse_statement collabBadJson [] (some "a.pdf")).fs = ["uploads/a.pdf"] ∧
      (parse_statement collabBadJson [] (some "a.pdf")).status = 500 ∧
      bodyError (parse_statement collabBadJson [] (some "a.pdf")).body =
        some "Failed to parse AI response as JSON" := by
  refine ⟨?_, ?_, ?_⟩ <;> decide

/-- Claim C5 (amended): once the upload has been stored, the temporary file
is deleted on the success path, the empty-text path, and every generic
exception path — but not on the JSON parse failure path. Precisely: if the
upload's path did not pre-exist, it remains on disk after the request exactly
when the response is the "Failed to parse AI response as JSON" error. -/
theorem parse_statement_cleanup_iff (c : Collab) (fs0 : List String) (fn : String)
    (hfresh : pathJoin UPLOAD_FOLDER (c.secure_filename fn) ∉ fs0) :
    (pathJoin UPLOAD_FOLDER (c.secure_filename fn) ∈ (parse_statement c fs0 (some fn)).fs ↔
      bodyError (parse_statement c fs0 (some fn)).body =
        some "Failed to parse AI response as JSON") := by
  by_cases hfe : fn = ""
  · subst hfe
    have h : parse_statement c fs0 (some "") = ⟨400, errBody "No file selected", fs0⟩ := rfl
    rw [h]
    exact iff_of_false hfresh (ne_failed_msg_of "No file selected" (by decide) rfl)
  · by_cases hall : allowed_file fn = true
    · cases hpg : c.pdf_pages (pathJoin UPLOAD_FOLDER (c.secure_filename fn)) with
      | error e =>
        have h : parse_statement c fs0 (some fn) =
            ⟨500, errBody2 "An error occurred while processing the file" e,
              removePath (savePath fs0 (pathJoin UPLOAD_FOLDER (c.secure_filename fn)))
                (pathJoin UPLOAD_FOLDER (c.secure_filename fn))⟩ := by
          simp only [parse_statement]
          rw [if_neg hfe, if_pos hall]
          simp only [hpg]
        rw [h]
        exact iff_of_false (not_mem_removePath _ _)
          (ne_failed_msg_of "An error occurred while processing the file" (by decide) rfl)
      | ok pages =>
        by_cases hstrip : pyStrip (extract_text_from_pdf pages) = ""
        · have h : parse_statement c fs0 (some fn) =
              ⟨400, errBody "Could not extract text from PDF",
                removePath (savePath fs0 (pathJoin UPLOAD_FOLDER (c.secure_filename fn)))
                  (pathJoin UPLOAD_FOLDER (c.secure_filename fn))⟩ := by
            simp only [parse_statement]
            rw [if_neg hfe, if_pos hall]
            simp only [hpg, hstrip, if_pos]
          rw [h]
          exact iff_of_false (not_mem_removePath _ _)
            (ne_failed_msg_of "Could not extract text from PDF" (by decide) rfl)
        · cases hai : c.generate_content (geminiPrompt (extract_text_from_pdf pages)) with
          | error e =>
            have h : parse_statement c fs0 (some fn) =
                ⟨500, errBody2 "An error occurred while processing the file" e,
                  removePath (savePath fs0 (pathJoin UPLOAD_FOLDER (c.secure_filename fn)))
                    (pathJoin UPLOAD_FOLDER (c.secure_filename fn))⟩ := by
              simp only [parse_statement]
              rw [if_neg hfe, if_pos hall]
              simp only [hpg, if_neg hstrip, extract_bank_data_with_gemini, hai]
            rw [h]
            exact iff_of_false (not_mem_removePath _ _)
              (ne_failed_msg_of "An error occurred while processing the file" (by decide) rfl)
          | ok ai =>
            cases hjson : c.json_loads (clean_ai_output ai) with
            | error e =>
              have h : parse_statement c fs0 (some fn) =
                  ⟨500, errBody2 "Failed to parse AI response as JSON" e,
                    savePath fs0 (pathJoin UPLOAD_FOLDER (c.secure_filename fn))⟩ := by
                simp only [parse_statement]
                rw [if_neg hfe, if_pos hall]
                simp only [hpg, if_neg hstrip, extract_bank_data_with_gemini, hai, hjson]
              rw [h]
              exact iff_of_true (mem_savePath_self _ _) rfl
            | ok data =>
              by_cases hobj : ∃ fields, data = .obj fields
              · obtain ⟨fields, rfl⟩ := hobj
                cases hva : validate_account_value (dictGet fields "account_number" (.str "")) with
                | error e =>
                  have h : parse_statement c fs0 (some fn) =
                      ⟨500, errBody2 "An error occurred while processing the file" e,
                        removePath (savePath fs0 (pathJoin UPLOAD_FOLDER (c.secure_filename fn)))
                          (pathJoin UPLOAD_FOLDER (c.secure_filename fn))⟩ := by
                    simp only [parse_statement]
                    rw [if_neg hfe, if_pos hall]
                    simp only [hpg, if_neg hstrip, extract_bank_data_with_gemini, hai, hjson, hva]
                  rw [h]
                  exact iff_of_false (not_mem_removePath _ _)
                    (ne_failed_msg_of "An error occurred while processing the file" (by decide) rfl)
                | ok av =>
                  cases hvs : validate_sort_code_value (dictGet fields "sort_code" (.str "")) with
                  | error e =>
                    have h : parse_statement c fs0 (some fn) =
                        ⟨500, errBody2 "An error occurred while processing the file" e,
                          removePath (savePath fs0 (pathJoin UPLOAD_FOLDER (c.secure_filename fn)))
                            (pathJoin UPLOAD_FOLDER (c.secure_filename fn))⟩ := by
                      simp only [parse_statement]
                      rw [if_neg hfe, if_pos hall]
                      simp only [hpg, if_neg hstrip, extract_bank_data_with_gemini, hai, hjson,
                        hva, hvs]
                    rw [h]
                    exact iff_of_false (not_mem_removePath _ _)
                      (ne_failed_msg_of "An error occurred while processing the file" (by decide) rfl)
                  | ok sv =>
                    have h : parse_statement c fs0 (some fn) =
                        ⟨200, .obj [("success", .bool true), ("data", .obj fields),
                            ("validation", .obj [("account_number_valid", .bool av),
                              ("sort_code_valid", .bool sv)]),
                            ("extracted_text_preview",
                              .str (pyTake (extract_text_from_pdf pages) 500))],
                          removePath (savePath fs0 (pathJoin UPLOAD_FOLDER (c.secure_filename fn)))
                            (pathJoin UPLOAD_FOLDER (c.secure_filename fn))⟩ := by
                      simp only [parse_statement]
                      rw [if_neg hfe, if_pos hall]
                      simp only [hpg, if_neg hstrip, extract_bank_data_with_gemini, hai, hjson,
                        hva, hvs]
                    rw [h]
                    exact iff_of_false (not_mem_removePath _ _) (not_some_failed_of_none rfl)
              · have h := parse_statement_nonobj_leaf c fs0 fn hfe hall pages hpg hstrip
                  ai hai data hjson (fun fields hf => hobj ⟨fields, hf⟩)
                rw [h]
                exact iff_of_false (not_mem_removePath _ _)
                  (ne_failed_msg_of "An error occurred while processing the file" (by decide) rfl)
    · have h : parse_statement c fs0 (some fn) =
          ⟨400, errBody "Only PDF files are allowed", fs0⟩ := by
        simp only [parse_statement]
        rw [if_neg hfe, if_neg hall]
      rw [h]
      exact iff_of_false hfresh (ne_failed_msg_of "Only PDF files are allowed" (by decide) rfl)

theorem parse_statement_cleanup_iff_witness :
    (pathJoin UPLOAD_FOLDER (collabBadJson.secure_filename "a.pdf") ∈
        (parse_statement collabBadJson [] (some "a.pdf")).fs ↔
      bodyError (parse_statement collabBadJson [] (some "a.pdf")).body =
        some "Failed to parse AI response as JSON") :=
  parse_statement_cleanup_iff collabBadJson [] "a.pdf" (by decide)

/-! ## Properties of the `str.replace` scan -/

theorem replaceGo_nil (p : Char) (ps rep : List Char) (fuel : Nat) :
    replaceGo p ps rep fuel [] = [] := by
  cases fuel <;> rfl

theorem replaceGo_fuel (p : Char) (ps rep : List Char) :
    ∀ f1 f2 (l : List Char), l.length ≤ f1 → l.length ≤ f2 →
      replaceGo p ps rep f1 l = replaceGo p ps rep f2 l := by
  intro f1
  induction f1 with
  | zero =>
    intro f2 l h1 h2
    have hl : l = [] := List.length_eq_zero.mp (Nat.le_zero.mp h1)
    subst hl
    rw [replaceGo_nil, replaceGo_nil]
  | succ f1' ih =>
    intro f2 l h1 h2
    cases l with
    | nil => rw [replaceGo_nil, replaceGo_nil]
    | cons c rest =>
      cases f2 with
      | zero => exact absurd (Nat.le_zero.mp h2) (by simp)
      | succ f2' =>
        simp only [replaceGo]
        by_cases hpre : (p :: ps).isPrefixOf (c :: rest) = true
        · rw [if_pos hpre, if_pos hpre]
          have hle : (rest.drop ps.length).length ≤ rest.length := by
            simp only [List.length_drop]
            omega
          have h1' : (rest.drop ps.length).length ≤ f1' := by
            have := Nat.le_of_succ_le_succ h1
            omega
          have h2' : (rest.drop ps.length).length ≤ f2' := by
            have := Nat.le_of_succ_le_succ h2
            omega
          rw [ih f2' (rest.drop ps.length) h1' h2']
        · rw [if_neg hpre, if_neg hpre]
          rw [ih f2' rest (Nat.le_of_succ_le_succ h1) (Nat.le_of_succ_le_succ h2)]

theorem replaceGo_no_occ (p : Char) (ps rep : List Char) :
    ∀ fuel (l : List Char), l.length ≤ fuel → ¬ ((p :: ps) <:+: l) →
      replaceGo p ps rep fuel l = l := by
  intro fuel
  induction fuel with
  | zero =>
    intro l h1 _
    have hl : l = [] := List.length_eq_zero.mp (Nat.le_zero.mp h1)
    subst hl
    rfl
  | succ f ih =>
    intro l h1 hocc
    cases l with
    | nil => rfl
    | cons c rest =>
      have hpre : ¬ ((p :: ps).isPrefixOf (c :: rest) = true) := by
        intro hp
        exact hocc (List.isPrefixOf_iff_prefix.mp hp).isInfix
      simp only [replaceGo]
      rw [if_neg hpre]
      have : replaceGo p ps rep f rest = rest :=
        ih rest (Nat.le_of_succ_le_succ h1)
          (fun hocc' => hocc (List.infix_cons hocc'))
      rw [this]

theorem replaceList_no_occ (p : Char) (ps rep l : List Char)
    (h : ¬ ((p :: ps) <:+: l)) : replaceList p ps rep l = l :=
  replaceGo_no_occ p ps rep l.length l (Nat.le_refl _) h

theorem replaceList_match_head (p : Char) (ps rep t : List Char) :
    replaceList p ps rep ((p :: ps) ++ t) = rep ++ replaceList p ps rep t := by
  unfold replaceList
  rw [List.cons_append, List.length_cons]
  simp only [replaceGo]
  rw [if_pos (List.isPrefixOf_iff_prefix.mpr (by
    rw [← List.cons_append]
    exact List.prefix_append (p :: ps) t))]
  rw [List.drop_left]
  exact congrArg (rep ++ ·)
    (replaceGo_fuel p ps rep _ _ t (by simp only [List.length_append]; omega) (Nat.le_refl _))

/-- A prefix of `a ++ x :: t` that avoids `x` is a prefix of `a`. -/
theorem prefix_avoid_singleton {x : Char} :
    ∀ (pat a t : List Char), x ∉ pat → pat <+: (a ++ x :: t) → pat <+: a := by
  intro pat
  induction pat with
  | nil =>
    intro a t _ _
    exact List.nil_prefix
  | cons q qt ih =>
    intro a t hx hp
    cases a with
    | nil =>
      rcases List.cons_prefix_cons.mp hp with ⟨rfl, _⟩
      exact absurd (List.mem_cons_self q qt) hx
    | cons c a' =>
      rw [List.cons_append] at hp
      rcases List.cons_prefix_cons.mp hp with ⟨rfl, htail⟩
      have hx' : x ∉ qt := fun hm => hx (List.mem_cons_of_mem q hm)
      exact List.cons_prefix_cons.mpr ⟨rfl, ih a' t hx' htail⟩

/-- An occurrence of a nonempty pattern avoiding `x` inside `a ++ x :: b`
lies entirely inside `a` or entirely inside `b`. -/
theorem infix_avoid_singleton {p : Char} {ps : List Char} {x : Char}
    (hx : x ∉ (p :: ps)) :
    ∀ (a b : List Char), (p :: ps) <:+: (a ++ x :: b) →
      (p :: ps) <:+: a ∨ (p :: ps) <:+: b := by
  intro a
  induction a with
  | nil =>
    intro b h
    rcases List.infix_cons_iff.mp h with hp | hi
    · rcases List.cons_prefix_cons.mp hp with ⟨rfl, _⟩
      exact absurd (List.mem_cons_self p ps) hx
    · exact Or.inr hi
  | cons c a' ih =>
    intro b h
    rw [List.cons_append] at h
    rcases List.infix_cons_iff.mp h with hp | hi
    · left
      have : (p :: ps) <+: (a' ++ x :: b) → (p :: ps) <+: a' :=
        prefix_avoid_singleton (p :: ps) a' b hx
      rcases List.cons_prefix_cons.mp hp with ⟨rfl, htail⟩
      have hx' := hx
      exact (List.cons_prefix_cons.mpr
        ⟨rfl, prefix_avoid_singleton ps a' b (fun hm => hx (List.mem_cons_of_mem _ hm)) htail⟩).isInfix
    · rcases ih b hi with h' | h'
      · exact Or.inl (List.infix_cons h')
      · exact Or.inr h'

theorem replaceList_skip (p : Char) (ps rep : List Char) (x : Char)
    (hx : x ∉ (p :: ps)) :
    ∀ (a t : List Char), ¬ ((p :: ps) <:+: a) →
      replaceList p ps rep (a ++ x :: t) = a ++ x :: replaceList p ps rep t := by
  have main : ∀ fuel (a t : List Char), (a ++ x :: t).length ≤ fuel →
      ¬ ((p :: ps) <:+: a) →
      replaceGo p ps rep fuel (a ++ x :: t) = a ++ x :: replaceList p ps rep t := by
    intro fuel
    induction fuel with
    | zero =>
      intro a t h1 _
      exact absurd (Nat.le_zero.mp h1) (by simp)
    | succ f ih =>
      intro a t h1 ha
      cases a with
      | nil =>
        have hxp : ¬ ((p :: ps).isPrefixOf (x :: t) = true) := by
          intro hp
          rcases List.cons_prefix_cons.mp (List.isPrefixOf_iff_prefix.mp hp) with ⟨rfl, _⟩
          exact hx (List.mem_cons_self p ps)
        simp only [List.nil_append, replaceGo]
        rw [if_neg hxp]
        exact congrArg (x :: ·)
          (replaceGo_fuel p ps rep f t.length t (by simpa using Nat.le_of_succ_le_succ h1)
            (Nat.le_refl _)).symm ▸ rfl
      | cons c a' =>
        have hpre : ¬ ((p :: ps).isPrefixOf (c :: (a' ++ x :: t)) = true) := by
          intro hp
          have hp' : (p :: ps) <+: ((c :: a') ++ x :: t) := by
            rw [List.cons_append]
            exact List.isPrefixOf_iff_prefix.mp hp
          exact ha (prefix_avoid_singleton (p :: ps) (c :: a') t hx hp').isInfix
        rw [List.cons_append]
        simp only [replaceGo]
        rw [if_neg hpre]
        have ha' : ¬ ((p :: ps) <:+: a') := fun h => ha (List.infix_cons h)
        have h1' : (a' ++ x :: t).length ≤ f := by
          rw [List.cons_append, List.length_cons] at h1
          omega
        rw [ih a' t h1' ha']
        rfl
  intro a t ha
  exact main (a ++ x :: t).length a t (Nat.le_refl _) ha

/-! ## `str.strip` lemmas -/

/-- `strip` is the identity when both ends are non-whitespace. -/
theorem listStrip_eq_self (c d : Char) (m : List Char)
    (hc : pyIsSpace c = false) (hd : pyIsSpace d = false) :
    listStrip (c :: (m ++ [d])) = c :: (m ++ [d]) := by
  unfold listStrip
  rw [List.dropWhile_cons_of_neg (by simp [hc])]
  have hrev : (c :: (m ++ [d])).reverse = d :: (m.reverse ++ [c]) := by simp
  rw [hrev]
  rw [List.dropWhile_cons_of_neg (by simp [hd])]
  rw [← hrev, List.reverse_reverse]

/-- Padding with one newline on each side does not change `strip`. -/
theorem listStrip_newline_pad (l : List Char) :
    listStrip ('\n' :: (l ++ ['\n'])) = listStrip l := by
  unfold listStrip
  have hnl : pyIsSpace '\n' = true := by decide
  rw [List.dropWhile_cons_of_pos hnl]
  rw [List.dropWhile_append]
  by_cases hall : (l.dropWhile pyIsSpace).isEmpty = true
  · rw [if_pos hall]
    rw [show List.dropWhile pyIsSpace ['\n'] = [] from by decide]
    rw [List.isEmpty_iff.mp hall]
  · rw [if_neg hall]
    rw [List.reverse_append]
    simp only [List.reverse_cons, List.reverse_nil, List.nil_append, List.singleton_append]
    rw [List.dropWhile_cons_of_pos hnl]

/-- `s.strip()` is invariant under newline padding. -/
theorem pyStrip_newline_pad (s : String) : pyStrip ("\n" ++ s ++ "\n") = pyStrip s := by
  unfold pyStrip
  have hdata : ("\n" ++ s ++ "\n").toList = '\n' :: (s.toList ++ ['\n']) := by
    show (("\n" ++ s) ++ "\n").data = _
    rw [String.data_append, String.data_append]
    rw [show ("\n" : String).data = ['\n'] from rfl]
    simp
  rw [hdata, listStrip_newline_pad]

/-! ## Claim C6: markdown fence cleanup -/

/-- The interpreter response shape of claim C6: the JSON text `j` wrapped in a
markdown code fence, ```` ```json ```` on its own line before and ```` ``` ````
after. -/
def fenceJson (j : String) : String := "```json\n" ++ j ++ "\n```"

/-- The character list of a fenced text. -/
theorem fenceJson_data (j : String) :
    (fenceJson j).toList =
      ('`' :: ['`', '`', 'j', 's', 'o', 'n']) ++ ('\n' :: (j.toList ++ ['\n', '`', '`', '`'])) := by
  show (("```json\n" ++ j) ++ "\n```").data = _
  rw [String.data_append, String.data_append]
  rw [show ("```json\n" : String).data = ['`', '`', '`', 'j', 's', 'o', 'n', '\n'] from rfl]
  rw [show ("\n```" : String).data = ['\n', '`', '`', '`'] from rfl]
  simp

/-- Stripping a fenced text changes nothing: it starts and ends with a
backtick. -/
theorem pyStrip_fenceJson (j : String) : pyStrip (fenceJson j) = fenceJson j := by
  unfold pyStrip
  have hshape : (fenceJson j).toList =
      '`' :: ((['`', '`', 'j', 's', 'o', 'n', '\n'] ++ j.toList ++ ['\n', '`', '`']) ++ ['`']) := by
    rw [fenceJson_data]
    simp
  rw [hshape, listStrip_eq_self '`' '`' _ (by decide) (by decide), ← hshape]
  rfl

/-- No occurrence of ```` ```json ```` survives after the leading fence when
`j` is backtick-fence-free. -/
theorem no_occ_fence_tail (j : String) (hnb : ¬ (['`', '`', '`'] <:+: j.toList)) :
    ¬ (('`' :: ['`', '`', 'j', 's', 'o', 'n']) <:+:
        ('\n' :: (j.toList ++ ['\n', '`', '`', '`']))) := by
  intro h
  have h0 : ('`' :: ['`', '`', 'j', 's', 'o', 'n']) <:+:
      (([] : List Char) ++ '\n' :: (j.toList ++ ['\n', '`', '`', '`'])) := by simpa using h
  rcases infix_avoid_singleton (by decide) [] (j.toList ++ ['\n', '`', '`', '`']) h0 with h' | h'
  · exact absurd h'.length_le (by decide)
  · rcases infix_avoid_singleton (by decide) j.toList ['`', '`', '`'] h' with h'' | h''
    · exact hnb
        (((by decide :
          (['`', '`', '`'] : List Char) <+: ('`' :: ['`', '`', 'j', 's', 'o', 'n']))).isInfix.trans
          h'')
    · exact absurd h''.length_le (by decide)

/-- First replace: removing ```` ```json ```` from the fenced text removes
exactly the opening fence. -/
theorem replace_fence_first (j : String) (hnb : ¬ (['`', '`', '`'] <:+: j.toList)) :
    pyReplace (fenceJson j) "```json" "" = "\n" ++ j ++ "\n```" := by
  have h0 : pyReplace (fenceJson j) "```json" "" =
      String.mk (replaceList '`' ['`', '`', 'j', 's', 'o', 'n'] [] (fenceJson j).toList) := rfl
  rw [h0, fenceJson_data, replaceList_match_head,
    replaceList_no_occ _ _ _ _ (no_occ_fence_tail j hnb)]
  apply String.ext
  show [] ++ ('\n' :: (j.toList ++ ['\n', '`', '`', '`'])) = (("\n" ++ j) ++ "\n```").data
  rw [String.data_append, String.data_append]
  rw [show ("\n" : String).data = ['\n'] from rfl]
  rw [show ("\n```" : String).data = ['\n', '`', '`', '`'] from rfl]
  simp

/-- Second replace: removing ```` ``` ```` then removes exactly the closing
fence. -/
theorem replace_fence_second (j : String) (hnb : ¬ (['`', '`', '`'] <:+: j.toList)) :
    pyReplace ("\n" ++ j ++ "\n```") "```" "" = "\n" ++ j ++ "\n" := by
  have h0 : pyReplace ("\n" ++ j ++ "\n```") "```" "" =
      String.mk (replaceList '`' ['`', '`'] [] ("\n" ++ j ++ "\n```").toList) := rfl
  have hshape : ("\n" ++ j ++ "\n```").toList = ('\n' :: j.toList) ++ ('\n' :: ['`', '`', '`']) := by
    show (("\n" ++ j) ++ "\n```").data = _
    rw [String.data_append, String.data_append]
    rw [show ("\n" : String).data = ['\n'] from rfl]
    rw [show ("\n```" : String).data = ['\n', '`', '`', '`'] from rfl]
    simp
  have hno2 : ¬ (('`' :: ['`', '`']) <:+: ('\n' :: j.toList)) := by
    intro h
    rcases List.infix_cons_iff.mp h with hp | hi
    · rcases List.cons_prefix_cons.mp hp with ⟨heq, _⟩
      exact absurd heq (by decide)
    · exact hnb hi
  rw [h0, hshape, replaceList_skip '`' ['`', '`'] [] '\n' (by decide) ('\n' :: j.toList)
    ['`', '`', '`'] hno2]
  rw [show replaceList '`' ['`', '`'] [] ['`', '`', '`'] = [] from rfl]
  apply String.ext
  show ('\n' :: j.toList) ++ ['\n'] = (("\n" ++ j) ++ "\n").data
  rw [String.data_append, String.data_append]
  rw [show ("\n" : String).data = ['\n'] from rfl]
  simp

/-- The cleanup step of `/parse-statement` on a fenced response: strip is the
identity and the two replaces remove exactly the two fences, leaving the
payload newline-padded. -/
theorem clean_ai_output_fenceJson (j : String)
    (hnb : ¬ (['`', '`', '`'] <:+: j.toList)) :
    clean_ai_output (fenceJson j) = "\n" ++ j ++ "\n" := by
  unfold clean_ai_output
  rw [pyStrip_fenceJson, replace_fence_first j hnb, replace_fence_second j hnb]

/-- A JSON parser ignores one newline of padding on each side of the
document (true of `json.loads`, whose grammar skips surrounding
whitespace). -/
def NewlinePadInvariant (loads : String → Except String JValue) : Prop :=
  ∀ s, loads ("\n" ++ s ++ "\n") = loads s

/-- A miniature JSON parser for backslash-free string literals: strip
whitespace, require a double-quoted body with no interior quote or
backslash. Enough of `json.loads` to exhibit the two parses of claim C6. -/
def strLitLoads (s : String) : Except String JValue :=
  match (pyStrip s).toList with
  | '"' :: rest =>
    match rest.reverse with
    | '"' :: midRev =>
      if midRev.reverse.all (fun c => c ≠ '"' && c ≠ '\\') then
        .ok (.str (String.mk midRev.reverse))
      else .error "unsupported escape"
    | _ => .error "Expecting value"
  | _ => .error "Expecting value"

theorem strLitLoads_pad : NewlinePadInvariant strLitLoads := by
  intro s
  unfold strLitLoads
  rw [pyStrip_newline_pad]

/-- Claim C6, as stated, is false: when the JSON text itself contains three
consecutive backticks (legal inside a JSON string), the cleanup's
`replace("```", "")` also deletes them, so a whitespace-insensitive parser
sees a different document. Here `"```"` (a JSON string literal) parses to
the string ``` unfenced, but the cleaned fenced text parses to the empty
string. -/
theorem clean_ai_output_mangles_fenced :
    NewlinePadInvariant strLitLoads ∧
      strLitLoads (clean_ai_output (fenceJson "\"```\"")) ≠ strLitLoads "\"```\"" := by
  refine ⟨strLitLoads_pad, ?_⟩
  rw [show strLitLoads (clean_ai_output (fenceJson "\"```\"")) = .ok (.str "") from rfl]
  rw [show strLitLoads "\"```\"" = .ok (.str "```") from rfl]
  intro h
  injection h with h1
  injection h1 with h2
  exact absurd h2 (by decide)

/-- Claim C6 (amended): for every JSON text `j` that does not itself contain
three consecutive backticks, the `/parse-statement` cleanup applied to the
fenced interpreter response parses exactly as the unfenced text, for any
parser that ignores newline padding (as `json.loads` does). -/
theorem clean_ai_output_unfences (loads : String → Except String JValue)
    (hpad : NewlinePadInvariant loads) (j : String)
    (hnb : ¬ (['`', '`', '`'] <:+: j.toList)) :
    loads (clean_ai_output (fenceJson j)) = loads j := by
  rw [clean_ai_output_fenceJson j hnb, hpad]

theorem clean_ai_output_unfences_witness :
    strLitLoads (clean_ai_output (fenceJson "\"ok\"")) = strLitLoads "\"ok\"" :=
  clean_ai_output_unfences strLitLoads strLitLoads_pad "\"ok\"" (by decide)
